import Mathlib

/-!
Shallow embedding of the OGC API Tiles utilities of ol/source/ogcTileUtil.js.

The JavaScript source is translated function by function into executable Lean
definitions.  Conventions used throughout:

- JavaScript strings become Lean String; optional values become Option.
- JavaScript truthiness of an optional string (undefined or the empty string
  are falsy) is captured by the predicate jsTruthy below.
- JavaScript numbers appearing as tile indices are modelled as Int (the code
  only ever adds, negates and compares them, which is exact for integers);
  map-unit quantities (cell sizes, origins, extents) are also modelled as
  Int: every operation the source applies to them (addition, subtraction,
  multiplication, min, max, comparison) is exact on integers, and no claim
  under consideration depends on fractional values or IEEE-754 rounding.
- JavaScript object lookup tables that are filled with key overwrite
  semantics are modelled as association lists where the most recent write is
  found first.
- Host platform services that are external collaborators of this module
  (the projection registry, relative URL resolution) are passed as explicit
  function parameters, mirroring the imports of the source file.
- Thrown exceptions become Except errors.  Reading a property of an
  undefined value (a JavaScript TypeError) is modelled by a dedicated error
  value.
-/

/-- Decidable equality for Except results, used to evaluate the embedding on
concrete inputs. -/
def exceptDecEq {ε : Type u} {α : Type v} [DecidableEq ε] [DecidableEq α] :
    (a b : Except ε α) → Decidable (a = b)
  | Except.error e, Except.error f =>
    if h : e = f then Decidable.isTrue (by rw [h]) else Decidable.isFalse (by simp [h])
  | Except.error _, Except.ok _ => Decidable.isFalse (by simp)
  | Except.ok _, Except.error _ => Decidable.isFalse (by simp)
  | Except.ok a, Except.ok b =>
    if h : a = b then Decidable.isTrue (by rw [h]) else Decidable.isFalse (by simp [h])

instance {ε : Type u} {α : Type v} [DecidableEq ε] [DecidableEq α] :
    DecidableEq (Except ε α) := exceptDecEq

/-- JavaScript truthiness of a possibly-undefined string: undefined and the
empty string are falsy. -/
def jsTruthy : Option String → Bool
  | none => false
  | some s => s != ""

/-- Association-list lookup; entries are prepended on write, so the first
match is the most recent write, matching JavaScript object assignment. -/
def assocFind (m : List (String × String)) (k : String) : Option String :=
  (m.find? (fun p => p.1 == k)).map (fun p => p.2)

/-- Split a string at every occurrence of a single character, like the
JavaScript String.split with a one-character separator. -/
def splitOnCharAux (c : Char) : List Char → List Char → List String
  | [], acc => [String.mk acc.reverse]
  | d :: rest, acc =>
    if d == c then String.mk acc.reverse :: splitOnCharAux c rest []
    else splitOnCharAux c rest (d :: acc)

def splitOnChar (c : Char) (s : String) : List String :=
  splitOnCharAux c s.data []

def charStartsWith : List Char → List Char → Bool
  | _, [] => true
  | [], _ :: _ => false
  | c :: cs, p :: ps => c == p && charStartsWith cs ps

/-- Model of JavaScript String.startsWith. -/
def strStartsWith (s pat : String) : Bool :=
  charStartsWith s.data pat.data

/-- knownMapMediaTypes from the source: the recognized raster media types. -/
def knownMapMediaTypes (t : String) : Bool :=
  t == "image/png" || t == "image/jpeg" || t == "image/gif" || t == "image/webp"

/-- knownVectorMediaTypes from the source: the recognized vector media types. -/
def knownVectorMediaTypes (t : String) : Bool :=
  t == "application/vnd.mapbox-vector-tile" || t == "application/geo+json"

/-! ### Model of the host URL and encoding primitives

The source uses the WHATWG URL class, URLSearchParams, encodeURIComponent and
decodeURIComponent of the host platform.  They are modelled here for the
fragments of behaviour the source exercises.  Percent-encoding of path
characters by the URL parser is omitted: it rewrites only characters outside
[A-Za-z0-9] and therefore can neither create nor destroy a path segment that
is exactly the lowercase word collections, the only property of the pathname
the source consults. -/

def hexDigitChar (n : Nat) : Char :=
  if n < 10 then Char.ofNat (48 + n) else Char.ofNat (55 + n)

def hexVal (c : Char) : Option Nat :=
  let n := c.toNat
  if 48 ≤ n ∧ n ≤ 57 then some (n - 48)
  else if 65 ≤ n ∧ n ≤ 70 then some (n - 55)
  else if 97 ≤ n ∧ n ≤ 102 then some (n - 87)
  else none

/-- UTF-8 bytes of one character. -/
def utf8BytesOf (c : Char) : List Nat :=
  let n := c.toNat
  if n < 0x80 then [n]
  else if n < 0x800 then [0xC0 + n / 0x40, 0x80 + n % 0x40]
  else if n < 0x10000 then
    [0xE0 + n / 0x1000, 0x80 + (n / 0x40) % 0x40, 0x80 + n % 0x40]
  else
    [0xF0 + n / 0x40000, 0x80 + (n / 0x1000) % 0x40, 0x80 + (n / 0x40) % 0x40,
      0x80 + n % 0x40]

def isContByte (b : Nat) : Bool := 0x80 ≤ b && b < 0xC0

/-- Decode a UTF-8 byte sequence; malformed bytes become U+FFFD.  The inputs
this development evaluates are all well formed. -/
def utf8Decode : List Nat → List Char
  | [] => []
  | b :: rest =>
    if b < 0x80 then Char.ofNat b :: utf8Decode rest
    else if 0xC0 ≤ b ∧ b < 0xE0 then
      match rest with
      | b2 :: r =>
        if isContByte b2 then
          Char.ofNat ((b - 0xC0) * 0x40 + (b2 - 0x80)) :: utf8Decode r
        else Char.ofNat 0xFFFD :: utf8Decode (b2 :: r)
      | [] => [Char.ofNat 0xFFFD]
    else if 0xE0 ≤ b ∧ b < 0xF0 then
      match rest with
      | b2 :: b3 :: r =>
        if isContByte b2 && isContByte b3 then
          Char.ofNat ((b - 0xE0) * 0x1000 + (b2 - 0x80) * 0x40 + (b3 - 0x80)) ::
            utf8Decode r
        else Char.ofNat 0xFFFD :: utf8Decode (b2 :: b3 :: r)
      | _ => [Char.ofNat 0xFFFD]
    else if 0xF0 ≤ b ∧ b < 0xF5 then
      match rest with
      | b2 :: b3 :: b4 :: r =>
        if isContByte b2 && isContByte b3 && isContByte b4 then
          Char.ofNat ((b - 0xF0) * 0x40000 + (b2 - 0x80) * 0x1000 +
            (b3 - 0x80) * 0x40 + (b4 - 0x80)) :: utf8Decode r
        else Char.ofNat 0xFFFD :: utf8Decode (b2 :: b3 :: b4 :: r)
      | _ => [Char.ofNat 0xFFFD]
    else Char.ofNat 0xFFFD :: utf8Decode rest

/-- Characters that encodeURIComponent leaves unescaped. -/
def isUriUnescaped (c : Char) : Bool :=
  c.isAlphanum || c == '-' || c == '_' || c == '.' || c == '!' || c == '~' ||
    c == '*' || c.toNat == 39 || c == '(' || c == ')'

def percentEncodeByte (b : Nat) : List Char :=
  ['%', hexDigitChar (b / 16), hexDigitChar (b % 16)]

/-- Model of the host encodeURIComponent. -/
def encodeURIComponent (s : String) : String :=
  String.mk (s.data.foldr
    (fun c acc =>
      (if isUriUnescaped c then [c]
       else (utf8BytesOf c).foldr (fun b a => percentEncodeByte b ++ a) []) ++ acc)
    [])

/-- Decode percent escapes (and, for form decoding, plus signs) to bytes.
The host decodeURIComponent raises on a malformed escape; the inputs built by
this module are always well formed, so malformed escapes are kept literally
instead. -/
def percentDecodeBytes (plusToSpace : Bool) : List Char → List Nat
  | [] => []
  | '%' :: a :: b :: rest =>
    match hexVal a, hexVal b with
    | some x, some y => (16 * x + y) :: percentDecodeBytes plusToSpace rest
    | _, _ => 37 :: percentDecodeBytes plusToSpace (a :: b :: rest)
  | '+' :: rest =>
    (if plusToSpace then 32 else 43) :: percentDecodeBytes plusToSpace rest
  | c :: rest => utf8BytesOf c ++ percentDecodeBytes plusToSpace rest

/-- Model of the host decodeURIComponent (which does not touch plus signs). -/
def decodeURIComponent (s : String) : String :=
  String.mk (utf8Decode (percentDecodeBytes false s.data))

/-- application/x-www-form-urlencoded decoding, as used by URLSearchParams. -/
def formDecodeStr (s : String) : String :=
  String.mk (utf8Decode (percentDecodeBytes true s.data))

/-- Characters URLSearchParams serialization leaves unescaped. -/
def isFormSafe (c : Char) : Bool :=
  c.isAlphanum || c == '*' || c == '-' || c == '.' || c == '_'

/-- application/x-www-form-urlencoded encoding, as used by URLSearchParams. -/
def formEncodeStr (s : String) : String :=
  String.mk (s.data.foldr
    (fun c acc =>
      (if isFormSafe c then [c]
       else if c == ' ' then ['+']
       else (utf8BytesOf c).foldr (fun b a => percentEncodeByte b ++ a) []) ++ acc)
    [])

/-- Parse a raw query string into key-value pairs, URLSearchParams style:
split on ampersands, drop empty pieces, split each piece at the first equals
sign, form-decode keys and values. -/
def parseFormPairs (query : String) : List (String × String) :=
  ((splitOnChar '&' query).filter (fun p => p != "")).map (fun piece =>
    match splitOnChar '=' piece with
    | [] => ("", "")
    | k :: rest => (formDecodeStr k, formDecodeStr (String.intercalate "=" rest)))

/-- Serialize key-value pairs, URLSearchParams toString style. -/
def serializeFormPairs (ps : List (String × String)) : String :=
  String.intercalate "&" (ps.map (fun p => formEncodeStr p.1 ++ "=" ++ formEncodeStr p.2))

/-- Does the string have the shape scheme://authority (an absolute URL)?
Detected as a first slash-separated segment ending in a colon followed by an
empty segment. -/
def hasAuthority (s : String) : Bool :=
  match splitOnChar '/' s with
  | s0 :: s1 :: _ => s1 == "" && s0 != "" && (s0.data.getLast? == some ':')
  | _ => false

/-- For an absolute URL scheme://authority/path, the path part (with a
leading slash); the empty path becomes the root path. -/
def pathAfterAuthority (s : String) : String :=
  match splitOnChar '/' s with
  | _ :: _ :: _ :: rest => "/" ++ String.intercalate "/" rest
  | _ => "/"

/-- The pathname of new URL(t, base) for the file base used by the source:
strip the fragment, strip the query, drop the scheme and authority of an
absolute template or resolve a relative one against the root path, and
remove dot segments the way the WHATWG path parser does. -/
def filePathname (t : String) : String :=
  let noFrag := (splitOnChar '#' t).headD ""
  let noQuery := (splitOnChar '?' noFrag).headD ""
  let raw :=
    if hasAuthority noQuery then (pathAfterAuthority noQuery).drop 1
    else if strStartsWith noQuery "/" then noQuery.drop 1
    else noQuery
  let segs := splitOnChar '/' raw
  let out := segs.foldl
    (fun acc s =>
      if s == "." then acc
      else if s == ".." then acc.dropLast
      else acc ++ [s]) []
  let out :=
    if segs.getLast? == some "." || segs.getLast? == some ".." then out ++ [""]
    else out
  "/" ++ String.intercalate "/" out

/-- The query part of a template (everything after the first question mark,
fragment removed), fed to URLSearchParams. -/
def queryOf (t : String) : String :=
  let noFrag := (splitOnChar '#' t).headD ""
  match splitOnChar '?' noFrag with
  | [] => ""
  | [_] => ""
  | _ :: rest => String.intercalate "?" rest

/-- appendCollectionsQueryParam from the source, together with a flag
recording whether the diagnostic about collection endpoints was logged. -/
def appendCollectionsQueryParamLogged (tileUrlTemplate : String)
    (collections : List String) : String × Bool :=
  if collections.length = 0 then (tileUrlTemplate, false)
  else if "collections" ∈ splitOnChar '/' (filePathname tileUrlTemplate) then
    (tileUrlTemplate, true)
  else
    let encodedCollections :=
      String.intercalate "," (collections.map encodeURIComponent)
    let pairs :=
      parseFormPairs (queryOf tileUrlTemplate) ++ [("collections", encodedCollections)]
    let baseUrl := (splitOnChar '?' tileUrlTemplate).headD ""
    let queryParams := decodeURIComponent (serializeFormPairs pairs)
    (baseUrl ++ "?" ++ queryParams, false)

/-- appendCollectionsQueryParam from the source (result value only). -/
def appendCollectionsQueryParam (tileUrlTemplate : String)
    (collections : List String) : String :=
  (appendCollectionsQueryParamLogged tileUrlTemplate collections).1

/-! ### URL template selectors -/

/-- A tileset link: rel, href and type attributes. -/
structure Link where
  rel : String
  href : String
  type : String
deriving DecidableEq

/-- The predicate for an exact preferred-type match on an item link.  A
missing preferred media type (undefined) compares unequal to every string. -/
def itemExactPred (mediaType : Option String) (l : Link) : Bool :=
  l.rel == "item" && mediaType == some l.type

/-- The scanning loop of getMapTileUrlTemplate: returns the short-circuited
exact match (first component) and the fallback template (second component).
The fallback accumulator mirrors the source exactly: a recognized raster
type always overwrites it, an image-prefixed type only writes it while it is
falsy. -/
def mapScan (mediaType : Option String) :
    List Link → Option String → Option String × Option String
  | [], fallbackUrlTemplate => (none, fallbackUrlTemplate)
  | link :: rest, fallbackUrlTemplate =>
    if link.rel == "item" then
      if mediaType == some link.type then (some link.href, fallbackUrlTemplate)
      else if knownMapMediaTypes link.type then mapScan mediaType rest (some link.href)
      else if !jsTruthy fallbackUrlTemplate && strStartsWith link.type "image/" then
        mapScan mediaType rest (some link.href)
      else mapScan mediaType rest fallbackUrlTemplate
    else mapScan mediaType rest fallbackUrlTemplate

/-- getMapTileUrlTemplate from the source. -/
def getMapTileUrlTemplate (links : List Link) (mediaType : Option String)
    (collections : Option (List String)) : Except String String :=
  let s := mapScan mediaType links none
  let chosen : Option String :=
    if jsTruthy s.1 then s.1 else if jsTruthy s.2 then s.2 else none
  match chosen with
  | none => Except.error "Could not find \"item\" link"
  | some t =>
    match collections with
    | some cs => Except.ok (appendCollectionsQueryParam t cs)
    | none => Except.ok t

/-- State of the scanning loop of getVectorTileUrlTemplate. -/
structure VScan where
  hrefLookup : List (String × String)
  fallbackUrlTemplate : Option String
  tileUrlTemplate : Option String
deriving DecidableEq

/-- The scanning loop of getVectorTileUrlTemplate: every link (regardless of
rel) is written into the type-to-href lookup, then item links are checked
for the exact match (which stops the scan) or a recognized vector type. -/
def vectorScan (mediaType : Option String) :
    List Link → List (String × String) → Option String → VScan
  | [], lookup, fallback => ⟨lookup, fallback, none⟩
  | link :: rest, lookup, fallback =>
    let lookup := (link.type, link.href) :: lookup
    if link.rel == "item" then
      if mediaType == some link.type then ⟨lookup, fallback, some link.href⟩
      else if knownVectorMediaTypes link.type then
        vectorScan mediaType rest lookup (some link.href)
      else vectorScan mediaType rest lookup fallback
    else vectorScan mediaType rest lookup fallback

/-- The supported-media-types walk of getVectorTileUrlTemplate: the first
entry whose lookup value is truthy wins. -/
def supportedWalk (lookup : List (String × String)) : List String → Option String
  | [] => none
  | t :: rest =>
    match assocFind lookup t with
    | some href => if href != "" then some href else supportedWalk lookup rest
    | none => supportedWalk lookup rest

/-- getVectorTileUrlTemplate from the source. -/
def getVectorTileUrlTemplate (links : List Link) (mediaType : Option String)
    (supportedMediaTypes : Option (List String))
    (collections : Option (List String)) : Except String String :=
  let s := vectorScan mediaType links [] none
  let t1 := s.tileUrlTemplate
  let t2 :=
    if !jsTruthy t1 then
      match supportedMediaTypes with
      | some types =>
        match supportedWalk s.hrefLookup types with
        | some u => some u
        | none => t1
      | none => t1
    else t1
  let chosen : Option String :=
    if jsTruthy t2 then t2
    else if jsTruthy s.fallbackUrlTemplate then s.fallbackUrlTemplate
    else none
  match chosen with
  | none => Except.error "Could not find \"item\" link"
  | some t =>
    match collections with
    | some cs => Except.ok (appendCollectionsQueryParam t cs)
    | none => Except.ok t

/-! ### Data model of the tile matrix set parser -/

/-- The coordinate reference system of a tile matrix set: a bare URI string,
an object carrying a uri field, or an opaque WKT or reference-system object
(whose JSON rendering is kept as a string). -/
inductive Crs where
  | uri (s : String)
  | uriObject (uri : String)
  | wkt (json : String)
  | referenceSystem (json : String)
deriving DecidableEq

/-- Model of JSON.stringify on a crs value, as used in the unsupported-CRS
error message.  String escaping inside the payload is not re-modelled. -/
def crsStringify : Crs → String
  | Crs.uri s => "\"" ++ s ++ "\""
  | Crs.uriObject u => "\x7b\"uri\":\"" ++ u ++ "\"\x7d"
  | Crs.wkt j => "\x7b\"wkt\":" ++ j ++ "\x7d"
  | Crs.referenceSystem j => "\x7b\"referenceSystem\":" ++ j ++ "\x7d"

/-- A projection from the external projection registry; only its axis
orientation is consulted by this module. -/
structure Projection where
  axisOrientation : String
deriving DecidableEq

/-- One zoom level of a tile matrix set. -/
structure TileMatrix where
  id : String
  cellSize : Int
  pointOfOrigin : Int × Int
  cornerOfOrigin : Option String
  matrixWidth : Int
  matrixHeight : Int
  tileWidth : Int
  tileHeight : Int
deriving DecidableEq

/-- Per-level restriction of valid tile indices. -/
structure TileMatrixSetLimit where
  tileMatrix : String
  minTileRow : Int
  maxTileRow : Int
  minTileCol : Int
  maxTileCol : Int
deriving DecidableEq

/-- A tile matrix set definition. -/
structure TileMatrixSet where
  id : String
  crs : Crs
  orderedAxes : Option (List String)
  tileMatrices : List TileMatrix
deriving DecidableEq

/-- Caller-supplied source configuration. -/
structure SourceInfo where
  url : String
  mediaType : Option String
  supportedMediaTypes : Option (List String)
  projection : Option Projection
  context : Option (List (String × String))
  collections : Option (List String)
deriving DecidableEq

/-- Failures of parseTileMatrixSet: the explicit unsupported-CRS throw, or a
host TypeError from reading a property of an undefined lookup result. -/
inductive ParseErr where
  | unsupportedCrs (msg : String)
  | typeError
deriving DecidableEq

/-- First regex replacement of the axis normalization: the first occurrence
of E, X or Lon (case-insensitive, alternatives tried in that order at each
position) becomes the single letter e. -/
def isWordAt (c : Char) (w1 w2 w3 : Char) (rest : List Char) : Bool :=
  match rest with
  | b :: d :: _ => c.toLower == w1 && b.toLower == w2 && d.toLower == w3
  | _ => false

def replaceFirstEXLon : List Char → List Char
  | [] => []
  | c :: rest =>
    if c.toLower == 'e' || c.toLower == 'x' then 'e' :: rest
    else if isWordAt c 'l' 'o' 'n' rest then 'e' :: rest.drop 2
    else c :: replaceFirstEXLon rest

/-- Second regex replacement: the first occurrence of N, Y or Lat becomes n. -/
def replaceFirstNYLat : List Char → List Char
  | [] => []
  | c :: rest =>
    if c.toLower == 'n' || c.toLower == 'y' then 'n' :: rest
    else if isWordAt c 'l' 'a' 't' rest then 'n' :: rest.drop 2
    else c :: replaceFirstNYLat rest

/-- Normalization of one orderedAxes entry. -/
def normalizeAxis (s : String) : String :=
  String.mk (replaceFirstNYLat (replaceFirstEXLon s.data))

/-- The axis orientation derived from an orderedAxes hint: first two entries
normalized and concatenated. -/
def axisOrientationHint (axes : List String) : String :=
  String.join ((axes.take 2).map normalizeAxis)

/-- Lookup of a matrix by id; built with overwrite semantics, so the last
matrix carrying an id wins. -/
def findMatrix (matrices : List TileMatrix) (id : String) : Option TileMatrix :=
  matrices.reverse.find? (fun m => m.id == id)

/-- Lookup of a limit by matrix id; last write wins. -/
def findLimit (limits : List TileMatrixSetLimit) (id : String) :
    Option TileMatrixSetLimit :=
  limits.reverse.find? (fun l => l.tileMatrix == id)

/-- The resolved matrix-id ordering: the limits order when limits are
supplied, else the declared matrix order. -/
def matrixIdsOf (tms : TileMatrixSet)
    (tileMatrixSetLimits : Option (List TileMatrixSetLimit)) : List String :=
  match tileMatrixSetLimits with
  | some limits => limits.map (fun l => l.tileMatrix)
  | none => tms.tileMatrices.map (fun m => m.id)

/-- A map-unit extent [minX, minY, maxX, maxY]. -/
structure Extent where
  minX : Int
  minY : Int
  maxX : Int
  maxY : Int
deriving DecidableEq

/-- getIntersection from the external extent module. -/
def intersectExtents (a b : Extent) : Extent :=
  ⟨max a.minX b.minX, max a.minY b.minY, min a.maxX b.maxX, min a.maxY b.maxY⟩

/-- One level of the grid under construction. -/
structure LevelData where
  origin : Int × Int
  resolution : Int
  size : Int × Int
  tileSize : Int × Int
  box : Option Extent
deriving DecidableEq

/-- The body of the per-level loop of parseTileMatrixSet for one matrix id:
looks the matrix up, swaps the origin when the axis order is backwards, and
computes the limited bounding box when a limit exists for the id.  Reading
pointOfOrigin of a missing matrix record is the TypeError of the source. -/
def levelData (backwards : Bool) (matrices : List TileMatrix)
    (tileMatrixSetLimits : Option (List TileMatrixSetLimit)) (id : String) :
    Except ParseErr LevelData :=
  match findMatrix matrices id with
  | none => Except.error ParseErr.typeError
  | some matrix =>
    let origin :=
      if backwards then (matrix.pointOfOrigin.2, matrix.pointOfOrigin.1)
      else matrix.pointOfOrigin
    let base : LevelData :=
      { origin := origin
        resolution := matrix.cellSize
        size := (matrix.matrixWidth, matrix.matrixHeight)
        tileSize := (matrix.tileWidth, matrix.tileHeight)
        box := none }
    match (match tileMatrixSetLimits with
           | some limits => findLimit limits id
           | none => none) with
    | none => Except.ok base
    | some limit =>
      let tileMapWidth := matrix.cellSize * matrix.tileWidth
      let minX := origin.1 + limit.minTileCol * tileMapWidth
      let maxX := origin.1 + (limit.maxTileCol + 1) * tileMapWidth
      let tileMapHeight := matrix.cellSize * matrix.tileHeight
      let upsideDown := matrix.cornerOfOrigin == some "bottomLeft"
      let minY :=
        if upsideDown then origin.2 + limit.minTileRow * tileMapHeight
        else origin.2 - (limit.maxTileRow + 1) * tileMapHeight
      let maxY :=
        if upsideDown then origin.2 + (limit.maxTileRow + 1) * tileMapHeight
        else origin.2 - limit.minTileRow * tileMapHeight
      Except.ok { base with box := some ⟨minX, minY, maxX, maxY⟩ }

/-- Error-propagating map over the ordered matrix ids, mirroring the loop
that fills the parallel per-level arrays. -/
def exceptMap (f : String → Except ParseErr LevelData) :
    List String → Except ParseErr (List LevelData)
  | [] => Except.ok []
  | id :: rest =>
    match f id with
    | Except.error e => Except.error e
    | Except.ok d =>
      match exceptMap f rest with
      | Except.error e => Except.error e
      | Except.ok l => Except.ok (d :: l)

/-- Running intersection of the limited level boxes.  The identity extent
[-Infinity, -Infinity, Infinity, Infinity] of the source is modelled as
none (the full plane). -/
def foldExtent (levels : List LevelData) : Option Extent :=
  levels.foldl
    (fun e d =>
      match d.box with
      | none => e
      | some b =>
        match e with
        | none => some b
        | some e0 => some (intersectExtents e0 b)) none

/-- The data produced by parseTileMatrixSet: the tile grid inputs (parallel
per-level arrays plus the optional overall extent handed to the external
TileGrid constructor), the resolved projection, and the values captured by
the constructed URL function. -/
structure TileSetInfo where
  urlTemplate : String
  projection : Projection
  origins : List (Int × Int)
  resolutions : List Int
  sizes : List (Int × Int)
  tileSizes : List (Int × Int)
  gridExtent : Option (Option Extent)
  matrixIds : List String
deriving DecidableEq

/-- The projection-resolution step of parseTileMatrixSet: the supplied
source projection if any, else the registry lookup for a URI crs (a bare
string or an object carrying a uri field), else nothing. -/
def resolveProjection (getProjection : String → Option Projection)
    (sourceInfo : SourceInfo) (tileMatrixSet : TileMatrixSet) : Option Projection :=
  match sourceInfo.projection with
  | some p => some p
  | none =>
    match tileMatrixSet.crs with
    | Crs.uri s => getProjection s
    | Crs.uriObject u => getProjection u
    | _ => none

/-- parseTileMatrixSet from the source.  The external projection registry is
passed as the getProjection parameter. -/
def parseTileMatrixSet (getProjection : String → Option Projection)
    (sourceInfo : SourceInfo) (tileMatrixSet : TileMatrixSet)
    (tileUrlTemplate : String)
    (tileMatrixSetLimits : Option (List TileMatrixSetLimit)) :
    Except ParseErr TileSetInfo :=
  match resolveProjection getProjection sourceInfo tileMatrixSet with
  | none =>
    Except.error (ParseErr.unsupportedCrs
      ("Unsupported CRS: " ++ crsStringify tileMatrixSet.crs))
  | some projection =>
    let axisOrientation :=
      match tileMatrixSet.orderedAxes with
      | some axes => axisOrientationHint axes
      | none => projection.axisOrientation
    let backwards := !strStartsWith axisOrientation "en"
    let matrixIds := matrixIdsOf tileMatrixSet tileMatrixSetLimits
    match exceptMap
        (levelData backwards tileMatrixSet.tileMatrices tileMatrixSetLimits)
        matrixIds with
    | Except.error e => Except.error e
    | Except.ok levels =>
      Except.ok
        { urlTemplate := tileUrlTemplate
          projection := projection
          origins := levels.map (fun d => d.origin)
          resolutions := levels.map (fun d => d.resolution)
          sizes := levels.map (fun d => d.size)
          tileSizes := levels.map (fun d => d.tileSize)
          gridExtent :=
            if tileMatrixSetLimits.isSome then some (foldExtent levels) else none
          matrixIds := matrixIds }

/-! ### The constructed tile URL function -/

/-- Word characters of the placeholder regex. -/
def isWordChar (c : Char) : Bool := c.isAlphanum || c == '_'

/-- Split a character list into its leading run of word characters and the
remainder. -/
def takeWordRun : List Char → List Char × List Char
  | [] => ([], [])
  | c :: rest =>
    if isWordChar c then
      let p := takeWordRun rest
      (c :: p.1, p.2)
    else ([], c :: rest)

/-- Parse a placeholder body: a nonempty word run followed by a closing
brace; returns the placeholder name and the remaining characters. -/
def parseVar (l : List Char) : Option (String × List Char) :=
  match takeWordRun l with
  | ([], _) => none
  | (w, d :: r2) => if d == '}' then some (String.mk w, r2) else none
  | (_, []) => none

/-- The placeholder substitution of the source: every occurrence of an
open brace, a nonempty word run and a closing brace is replaced by the
context value of the name; the replacement text is not rescanned.  The
recursion is driven by a fuel counter so that the definition stays
structural (each step consumes at least one character, so fuel equal to the
input length, as supplied by replaceTemplateVars, is never exhausted). -/
def replaceVarsFuel (f : String → String) : Nat → List Char → List Char
  | _, [] => []
  | 0, l => l
  | fuel + 1, c :: rest =>
    if c == '{' then
      match parseVar rest with
      | some (w, r2) => (f w).data ++ replaceVarsFuel f fuel r2
      | none => c :: replaceVarsFuel f fuel rest
    else c :: replaceVarsFuel f fuel rest

/-- tileUrlTemplate.replace of the source. -/
def replaceTemplateVars (t : String) (f : String → String) : String :=
  String.mk (replaceVarsFuel f t.data.length t.data)

/-- Lookup in the substitution context: later entries override earlier ones,
like Object.assign. -/
def ctxLookup (ctx : List (String × String)) (k : String) : Option String :=
  (ctx.reverse.find? (fun p => p.1 == k)).map (fun p => p.2)

/-- The substitution context of the URL function: tileMatrix, tileCol and
tileRow, duplicated under the aliases z, x and y, then overlaid with the
caller-supplied static context. -/
def tileContext (id : String) (tileCol tileRow : Int)
    (context : Option (List (String × String))) : List (String × String) :=
  [("tileMatrix", id), ("tileCol", toString tileCol), ("tileRow", toString tileRow),
    ("z", id), ("x", toString tileCol), ("y", toString tileRow)] ++ context.getD []

/-- JavaScript array indexing with a possibly negative index. -/
def listGetInt (xs : List String) (i : Int) : Option String :=
  if 0 ≤ i then xs[i.toNat]? else none

/-- Outcome of one URL function call: a URL string, undefined, or a host
TypeError (reading a property of undefined). -/
inductive UrlOut where
  | url (u : String)
  | undefined
  | typeError
deriving DecidableEq

/-- The external row to origin-relative row conversion of the source. -/
def convertedTileRow (matrix : TileMatrix) (row : Int) : Int :=
  if matrix.cornerOfOrigin == some "bottomLeft" then -row - 1 else row

/-- The tail of the URL function once the matrix record is resolved: limit
check on the converted coordinates, context construction, placeholder
substitution, and resolution against the base URL.  A missing placeholder
substitutes the literal text undefined, as String(undefined) does. -/
def tileUrlForRow (resolveUrl : String → String → String) (base : String)
    (context : Option (List (String × String)))
    (tileMatrixSetLimits : Option (List TileMatrixSetLimit))
    (tileUrlTemplate : String) (id : String) (matrix : TileMatrix)
    (tileCol tileRow : Int) : UrlOut :=
  let outcome : Option UrlOut :=
    match tileMatrixSetLimits with
    | none => none
    | some limits =>
      match findLimit limits matrix.id with
      | none => some UrlOut.typeError
      | some limit =>
        if tileCol < limit.minTileCol || tileCol > limit.maxTileCol ||
            tileRow < limit.minTileRow || tileRow > limit.maxTileRow then
          some UrlOut.undefined
        else none
  match outcome with
  | some out => out
  | none =>
    let localContext := tileContext id tileCol tileRow context
    let url := replaceTemplateVars tileUrlTemplate
      (fun p => (ctxLookup localContext p).getD "undefined")
    UrlOut.url (resolveUrl base url)

/-- tileUrlFunction from the source.  The pixelRatio and projection
arguments are declared, as in the source, and never used. -/
def tileUrlFunction (resolveUrl : String → String → String) (base : String)
    (context : Option (List (String × String))) (matrices : List TileMatrix)
    (matrixIds : List String)
    (tileMatrixSetLimits : Option (List TileMatrixSetLimit))
    (tileUrlTemplate : String) (tileCoord : Option (Int × Int × Int))
    (pixelRatio : Int) (projectionArg : Projection) : UrlOut :=
  match tileCoord with
  | none => UrlOut.undefined
  | some (z, col, row) =>
    match listGetInt matrixIds z with
    | none => UrlOut.typeError
    | some id =>
      match findMatrix matrices id with
      | none => UrlOut.typeError
      | some matrix =>
        tileUrlForRow resolveUrl base context tileMatrixSetLimits tileUrlTemplate
          id matrix col (convertedTileRow matrix row)

/-- The URL function as constructed by parseTileMatrixSet: the closure
captures the base URL and static context of the source info, the matrix
lookup, the resolved matrix-id ordering and the limits. -/
def parsedUrlFunction (resolveUrl : String → String → String)
    (sourceInfo : SourceInfo) (tileMatrixSet : TileMatrixSet)
    (tileMatrixSetLimits : Option (List TileMatrixSetLimit))
    (tileUrlTemplate : String) : Option (Int × Int × Int) → Int → Projection → UrlOut :=
  tileUrlFunction resolveUrl sourceInfo.url sourceInfo.context
    tileMatrixSet.tileMatrices (matrixIdsOf tileMatrixSet tileMatrixSetLimits)
    tileMatrixSetLimits tileUrlTemplate

/-! ### Specification-side selector descriptions

These definitions restate the selection policy in direct terms (first exact
match, lookup tables as reversed association lists, last or first matching
link) so that the scanning loops above can be proved equal to them. -/

/-- An item link with a recognized raster media type. -/
def knownMapItemPred (l : Link) : Bool :=
  l.rel == "item" && knownMapMediaTypes l.type

/-- An item link whose media type merely starts with image/. -/
def imageItemPred (l : Link) : Bool :=
  l.rel == "item" && strStartsWith l.type "image/"

/-- An item link with a recognized vector media type. -/
def knownVectorItemPred (l : Link) : Bool :=
  l.rel == "item" && knownVectorMediaTypes l.type

/-- The selection policy the map scanning loop actually implements. -/
def mapTemplateSpec (links : List Link) (mediaType : Option String) :
    Except String String :=
  match links.find? (itemExactPred mediaType) with
  | some l => Except.ok l.href
  | none =>
    match links.reverse.find? knownMapItemPred with
    | some l => Except.ok l.href
    | none =>
      match links.find? imageItemPred with
      | some l => Except.ok l.href
      | none => Except.error "Could not find \"item\" link"

/-- The type-to-href lookup over all links, last write per type winning. -/
def hrefByType (links : List Link) (t : String) : Option String :=
  assocFind ((links.map (fun l => (l.type, l.href))).reverse) t

/-- The selection policy the vector scanning loop actually implements. -/
def vectorTemplateSpec (links : List Link) (mediaType : Option String)
    (supportedMediaTypes : Option (List String)) : Except String String :=
  match links.find? (itemExactPred mediaType) with
  | some l => Except.ok l.href
  | none =>
    match supportedMediaTypes.bind (fun types => types.findSome? (hrefByType links)) with
    | some u => Except.ok u
    | none =>
      match links.reverse.find? knownVectorItemPred with
      | some l => Except.ok l.href
      | none => Except.error "Could not find \"item\" link"

/-! ### Characterization of the scanning loops -/

theorem mapScan_exact (mediaType : Option String) :
    ∀ (links : List Link) (fb : Option String),
      (mapScan mediaType links fb).1 =
        (links.find? (itemExactPred mediaType)).map Link.href := by
  intro links
  induction links with
  | nil => intro fb; simp [mapScan]
  | cons l rest ih =>
    intro fb
    by_cases hrel : l.rel == "item" <;> by_cases hmt : mediaType == some l.type <;>
      by_cases hk : knownMapMediaTypes l.type <;>
      simp [mapScan, hrel, hmt, hk, itemExactPred, List.find?_cons, ih] <;>
      split <;> simp [ih]

theorem mapScan_fallback (mediaType : Option String) :
    ∀ (links : List Link) (fb : Option String),
      (∀ l ∈ links, l.href ≠ "") →
      links.find? (itemExactPred mediaType) = none →
      (∀ s, fb = some s → s ≠ "") →
      (mapScan mediaType links fb).2 =
        match links.reverse.find? knownMapItemPred with
        | some l => some l.href
        | none =>
          match fb with
          | some s => some s
          | none => (links.find? imageItemPred).map Link.href := by
  intro links
  induction links with
  | nil =>
    intro fb h hex hfb
    cases fb <;> simp [mapScan]
  | cons l rest ih =>
    intro fb h hex hfb
    have hexl : ¬itemExactPred mediaType l := by
      intro hl
      rcases List.find?_eq_none.mp hex l (by simp) hl
    have hexr : rest.find? (itemExactPred mediaType) = none := by
      rw [List.find?_eq_none]
      intro x hx
      exact List.find?_eq_none.mp hex x (by simp [hx])
    have hlh : l.href ≠ "" := h l (by simp)
    have hr : ∀ x ∈ rest, x.href ≠ "" := fun x hx => h x (by simp [hx])
    have hrev : (l :: rest).reverse.find? knownMapItemPred =
        ((rest.reverse.find? knownMapItemPred).or ([l].find? knownMapItemPred)) := by
      rw [List.reverse_cons, List.find?_append]
    by_cases hrel : (l.rel == "item") = true
    · have hmt : ¬(mediaType == some l.type) = true := by
        intro hm; exact hexl (by simp [itemExactPred, hrel, hm])
      by_cases hk : knownMapMediaTypes l.type = true
      · -- recognized raster type: the fallback is overwritten with l.href
        have hstep : mapScan mediaType (l :: rest) fb = mapScan mediaType rest (some l.href) := by
          simp [mapScan, hrel, hmt, hk]
        rw [hstep, ih (some l.href) hr hexr (by intro s hs; cases hs; exact hlh), hrev]
        have hfl : [l].find? knownMapItemPred = some l := by
          simp [List.find?_cons, knownMapItemPred, hrel, hk]
        rw [hfl]
        cases hfind : rest.reverse.find? knownMapItemPred with
        | some l2 => simp [Option.or]
        | none => simp [Option.or]
      · have hkl : ¬knownMapItemPred l = true := by simp [knownMapItemPred, hk]
        have hfl : [l].find? knownMapItemPred = none := by
          simp [List.find?_cons, hkl]
        by_cases hw : (!jsTruthy fb && strStartsWith l.type "image/") = true
        · -- weak fallback branch fires; fb must have been falsy, hence none
          have hw2 := hw
          simp only [Bool.and_eq_true] at hw2
          have himg : strStartsWith l.type "image/" = true := hw2.2
          have hfbnone : fb = none := by
            cases hfb2 : fb with
            | none => rfl
            | some s =>
              exfalso
              have hs := hfb s hfb2
              have h1 := hw2.1
              rw [hfb2] at h1
              simp [jsTruthy, hs] at h1
          subst hfbnone
          have hstep : mapScan mediaType (l :: rest) none =
              mapScan mediaType rest (some l.href) := by
            simp [mapScan, hrel, hmt, hk, jsTruthy, himg]
          rw [hstep, ih (some l.href) hr hexr (by intro s hs; cases hs; exact hlh), hrev, hfl]
          cases hfind : rest.reverse.find? knownMapItemPred with
          | some l2 => simp [Option.or]
          | none =>
            have himgp : imageItemPred l = true := by
              simp [imageItemPred, hrel, himg]
            simp [Option.or, List.find?_cons, himgp]
        · -- neither fallback branch fires for this link
          have hstep : mapScan mediaType (l :: rest) fb = mapScan mediaType rest fb := by
            simp only [mapScan, hrel, if_true, if_neg hmt, if_neg hk]
            rw [if_neg hw]
          rw [hstep, ih fb hr hexr hfb, hrev, hfl]
          cases hfind : rest.reverse.find? knownMapItemPred with
          | some l2 => simp [Option.or]
          | none =>
            simp only [Option.or]
            cases fb with
            | some s => rfl
            | none =>
              have himgf : ¬imageItemPred l = true := by
                intro hi
                simp only [imageItemPred, Bool.and_eq_true] at hi
                apply hw
                simp [jsTruthy, hi.2]
              simp [List.find?_cons, himgf]
    · -- not an item link: invisible to every predicate
      have hkl : ¬knownMapItemPred l = true := by simp [knownMapItemPred, hrel]
      have himgf : ¬imageItemPred l = true := by simp [imageItemPred, hrel]
      have hfl : [l].find? knownMapItemPred = none := by simp [List.find?_cons, hkl]
      have hstep : mapScan mediaType (l :: rest) fb = mapScan mediaType rest fb := by
        simp [mapScan, hrel]
      rw [hstep, ih fb hr hexr hfb, hrev, hfl]
      cases hfind : rest.reverse.find? knownMapItemPred with
      | some l2 => simp [Option.or]
      | none =>
        simp only [Option.or]
        cases fb with
        | some s => rfl
        | none => simp [List.find?_cons, himgf]

theorem mem_of_reverse_find? {p : Link → Bool} {links : List Link} {l : Link}
    (h : links.reverse.find? p = some l) : l ∈ links := by
  have := List.mem_of_find?_eq_some h
  exact List.mem_reverse.mp this

/-- C2 (amended): with no exact preferred-type match, getMapTileUrlTemplate
returns the href of the LAST item link whose type is a recognized raster
media type (a later recognized link overwrites the fallback); if none
exists, the href of the first item link whose type starts with image/ (the
weaker fallback never overwrites the recognized-type one); if no fallback
exists it throws the no-item-link error.  Stated as equality with the
direct description mapTemplateSpec, for link lists whose hrefs are nonempty
(so that JavaScript truthiness cannot drop one). -/
theorem map_template_characterization (links : List Link) (mediaType : Option String)
    (h : ∀ l ∈ links, l.href ≠ "") :
    getMapTileUrlTemplate links mediaType none = mapTemplateSpec links mediaType := by
  simp only [getMapTileUrlTemplate, mapTemplateSpec]
  rw [mapScan_exact]
  cases hex : links.find? (itemExactPred mediaType) with
  | some l =>
    have hl : l ∈ links := List.mem_of_find?_eq_some hex
    have hhref := h l hl
    simp [jsTruthy, hhref]
  | none =>
    rw [mapScan_fallback mediaType links none h hex (by intro s hs; cases hs)]
    cases hlast : links.reverse.find? knownMapItemPred with
    | some l =>
      have hl : l ∈ links := mem_of_reverse_find? hlast
      have hhref := h l hl
      simp [jsTruthy, hhref]
    | none =>
      cases himg : links.find? imageItemPred with
      | some l =>
        have hl : l ∈ links := List.mem_of_find?_eq_some himg
        have hhref := h l hl
        simp [jsTruthy, hhref]
      | none => simp [jsTruthy]

theorem vectorScan_exact (mediaType : Option String) :
    ∀ (links : List Link) (lk : List (String × String)) (fb : Option String),
      (vectorScan mediaType links lk fb).tileUrlTemplate =
        (links.find? (itemExactPred mediaType)).map Link.href := by
  intro links
  induction links with
  | nil => intro lk fb; simp [vectorScan]
  | cons l rest ih =>
    intro lk fb
    by_cases hrel : (l.rel == "item") = true <;>
      by_cases hmt : (mediaType == some l.type) = true <;>
      by_cases hk : knownVectorMediaTypes l.type = true <;>
      simp [vectorScan, hrel, hmt, hk, itemExactPred, List.find?_cons, ih]

theorem vectorScan_lookup (mediaType : Option String) :
    ∀ (links : List Link) (lk : List (String × String)) (fb : Option String),
      links.find? (itemExactPred mediaType) = none →
      (vectorScan mediaType links lk fb).hrefLookup =
        (links.map (fun l => (l.type, l.href))).reverse ++ lk := by
  intro links
  induction links with
  | nil => intro lk fb hex; simp [vectorScan]
  | cons l rest ih =>
    intro lk fb hex
    have hexl : ¬itemExactPred mediaType l := by
      intro hl
      rcases List.find?_eq_none.mp hex l (by simp) hl
    have hexr : rest.find? (itemExactPred mediaType) = none := by
      rw [List.find?_eq_none]
      intro x hx
      exact List.find?_eq_none.mp hex x (by simp [hx])
    by_cases hrel : (l.rel == "item") = true
    · have hmt : ¬(mediaType == some l.type) = true := by
        intro hm; exact hexl (by simp [itemExactPred, hrel, hm])
      by_cases hk : knownVectorMediaTypes l.type = true
      · have hstep : (vectorScan mediaType (l :: rest) lk fb).hrefLookup =
            (vectorScan mediaType rest ((l.type, l.href) :: lk) (some l.href)).hrefLookup := by
          simp [vectorScan, hrel, hmt, hk]
        rw [hstep, ih _ _ hexr]
        simp
      · have hstep : (vectorScan mediaType (l :: rest) lk fb).hrefLookup =
            (vectorScan mediaType rest ((l.type, l.href) :: lk) fb).hrefLookup := by
          simp [vectorScan, hrel, hmt, hk]
        rw [hstep, ih _ _ hexr]
        simp
    · have hstep : (vectorScan mediaType (l :: rest) lk fb).hrefLookup =
          (vectorScan mediaType rest ((l.type, l.href) :: lk) fb).hrefLookup := by
        simp [vectorScan, hrel]
      rw [hstep, ih _ _ hexr]
      simp

theorem vectorScan_fallback (mediaType : Option String) :
    ∀ (links : List Link) (lk : List (String × String)) (fb : Option String),
      links.find? (itemExactPred mediaType) = none →
      (vectorScan mediaType links lk fb).fallbackUrlTemplate =
        match links.reverse.find? knownVectorItemPred with
        | some l => some l.href
        | none => fb := by
  intro links
  induction links with
  | nil => intro lk fb hex; simp [vectorScan]
  | cons l rest ih =>
    intro lk fb hex
    have hexl : ¬itemExactPred mediaType l := by
      intro hl
      rcases List.find?_eq_none.mp hex l (by simp) hl
    have hexr : rest.find? (itemExactPred mediaType) = none := by
      rw [List.find?_eq_none]
      intro x hx
      exact List.find?_eq_none.mp hex x (by simp [hx])
    have hrev : (l :: rest).reverse.find? knownVectorItemPred =
        ((rest.reverse.find? knownVectorItemPred).or
          ([l].find? knownVectorItemPred)) := by
      rw [List.reverse_cons, List.find?_append]
    by_cases hrel : (l.rel == "item") = true
    · have hmt : ¬(mediaType == some l.type) = true := by
        intro hm; exact hexl (by simp [itemExactPred, hrel, hm])
      by_cases hk : knownVectorMediaTypes l.type = true
      · have hstep : (vectorScan mediaType (l :: rest) lk fb).fallbackUrlTemplate =
            (vectorScan mediaType rest ((l.type, l.href) :: lk) (some l.href)).fallbackUrlTemplate := by
          simp [vectorScan, hrel, hmt, hk]
        rw [hstep, ih _ _ hexr, hrev]
        have hfl : [l].find? knownVectorItemPred = some l := by
          simp [List.find?_cons, knownVectorItemPred, hrel, hk]
        rw [hfl]
        cases hfind : rest.reverse.find? knownVectorItemPred with
        | some l2 => simp [Option.or]
        | none => simp [Option.or]
      · have hkl : ¬knownVectorItemPred l = true := by simp [knownVectorItemPred, hk]
        have hstep : (vectorScan mediaType (l :: rest) lk fb).fallbackUrlTemplate =
            (vectorScan mediaType rest ((l.type, l.href) :: lk) fb).fallbackUrlTemplate := by
          simp [vectorScan, hrel, hmt, hk]
        rw [hstep, ih _ _ hexr, hrev]
        have hfl : [l].find? knownVectorItemPred = none := by
          simp [List.find?_cons, hkl]
        rw [hfl]
        cases hfind : rest.reverse.find? knownVectorItemPred with
        | some l2 => simp [Option.or]
        | none => simp [Option.or]
    · have hkl : ¬knownVectorItemPred l = true := by simp [knownVectorItemPred, hrel]
      have hstep : (vectorScan mediaType (l :: rest) lk fb).fallbackUrlTemplate =
          (vectorScan mediaType rest ((l.type, l.href) :: lk) fb).fallbackUrlTemplate := by
        simp [vectorScan, hrel]
      rw [hstep, ih _ _ hexr, hrev]
      have hfl : [l].find? knownVectorItemPred = none := by
        simp [List.find?_cons, hkl]
      rw [hfl]
      cases hfind : rest.reverse.find? knownVectorItemPred with
      | some l2 => simp [Option.or]
      | none => simp [Option.or]

theorem supportedWalk_eq (lookup : List (String × String))
    (hv : ∀ t v, assocFind lookup t = some v → v ≠ "") :
    ∀ types : List String,
      supportedWalk lookup types = types.findSome? (fun t => assocFind lookup t) := by
  intro types
  induction types with
  | nil => simp [supportedWalk]
  | cons t rest ih =>
    rw [List.findSome?_cons]
    cases hf : assocFind lookup t with
    | some v =>
      have hne := hv t v hf
      simp [supportedWalk, hf, hne]
    | none => simp [supportedWalk, hf, ih]

theorem hrefByType_mem {links : List Link} {t v : String}
    (h : hrefByType links t = some v) : ∃ l ∈ links, l.href = v := by
  unfold hrefByType assocFind at h
  obtain ⟨p, hp, hv⟩ := Option.map_eq_some'.mp h
  have hmem := List.mem_of_find?_eq_some hp
  rw [List.mem_reverse, List.mem_map] at hmem
  obtain ⟨l, hl, hpl⟩ := hmem
  exact ⟨l, hl, by rw [← hv, ← hpl]⟩

/-- C1 (amended): getVectorTileUrlTemplate selects with this precedence:
(1) the exact preferred-type match on an item link, short-circuiting the
scan; (2) only if unresolved after the scan, the href of the first entry of
the callers ordered supported-media-types list present in the type-to-href
lookup table built over all links; (3) otherwise an item link whose type is
a recognized vector media type (the last one scanned); (4) otherwise it
fails.  Stated as equality with the direct description vectorTemplateSpec,
for link lists whose hrefs are nonempty. -/
theorem vector_template_characterization (links : List Link) (mediaType : Option String)
    (supportedMediaTypes : Option (List String))
    (h : ∀ l ∈ links, l.href ≠ "") :
    getVectorTileUrlTemplate links mediaType supportedMediaTypes none =
      vectorTemplateSpec links mediaType supportedMediaTypes := by
  simp only [getVectorTileUrlTemplate, vectorTemplateSpec]
  rw [vectorScan_exact]
  cases hex : links.find? (itemExactPred mediaType) with
  | some l =>
    have hl : l ∈ links := List.mem_of_find?_eq_some hex
    have hhref := h l hl
    simp [jsTruthy, hhref]
  | none =>
    rw [vectorScan_lookup mediaType links [] none hex,
      vectorScan_fallback mediaType links [] none hex]
    have hlookup : ∀ t v,
        assocFind ((links.map (fun l => (l.type, l.href))).reverse ++ []) t = some v →
        v ≠ "" := by
      intro t v hf
      rw [List.append_nil] at hf
      obtain ⟨l, hl, hv⟩ := hrefByType_mem hf
      rw [← hv]
      exact h l hl
    have hwalkeq : ∀ types : List String,
        supportedWalk ((links.map (fun l => (l.type, l.href))).reverse ++ []) types =
          types.findSome? (hrefByType links) := by
      intro types
      rw [supportedWalk_eq _ hlookup types]
      simp only [List.append_nil]
      rfl
    simp only [jsTruthy, Bool.not_false]
    cases supportedMediaTypes with
    | none =>
      simp only [Option.bind]
      cases hlast : links.reverse.find? knownVectorItemPred with
      | some l =>
        have hl : l ∈ links := mem_of_reverse_find? hlast
        have hhref := h l hl
        simp [jsTruthy, hhref]
      | none => simp [jsTruthy]
    | some types =>
      simp only [Option.bind]
      rw [hwalkeq types]
      cases hws : types.findSome? (hrefByType links) with
      | some u =>
        obtain ⟨t, ht, hu⟩ := List.exists_of_findSome?_eq_some hws
        obtain ⟨l, hl, hv⟩ := hrefByType_mem hu
        have hne : u ≠ "" := by rw [← hv]; exact h l hl
        simp [jsTruthy, hne]
      | none =>
        cases hlast : links.reverse.find? knownVectorItemPred with
        | some l =>
          have hl : l ∈ links := mem_of_reverse_find? hlast
          have hhref := h l hl
          simp [jsTruthy, hhref]
        | none => simp [jsTruthy]

/-! ### Lemmas about the per-level loop -/

def exceptIsOk {ε : Type u} {α : Type v} : Except ε α → Bool
  | Except.ok _ => true
  | Except.error _ => false

theorem findMatrix_id {ms : List TileMatrix} {id : String} {m : TileMatrix}
    (h : findMatrix ms id = some m) : m.id = id := by
  unfold findMatrix at h
  have := List.find?_some h
  exact eq_of_beq this

theorem levelData_error_of_none {b : Bool} {ms : List TileMatrix}
    {ls : Option (List TileMatrixSetLimit)} {id : String}
    (h : findMatrix ms id = none) :
    levelData b ms ls id = Except.error ParseErr.typeError := by
  unfold levelData
  rw [h]

theorem levelData_ok_of_find {b : Bool} {ms : List TileMatrix}
    {ls : Option (List TileMatrixSetLimit)} {id : String} {m : TileMatrix}
    (h : findMatrix ms id = some m) :
    ∃ d, levelData b ms ls id = Except.ok d ∧
      d.origin = (if b then (m.pointOfOrigin.2, m.pointOfOrigin.1) else m.pointOfOrigin) := by
  unfold levelData
  rw [h]
  cases hcase : (match ls with
    | some limits => findLimit limits id
    | none => none : Option TileMatrixSetLimit) with
  | none => exact ⟨_, rfl, rfl⟩
  | some limit => exact ⟨_, rfl, rfl⟩

theorem exceptMap_levelData_error (b : Bool) (ms : List TileMatrix)
    (ls : Option (List TileMatrixSetLimit)) :
    ∀ ids : List String, (∃ id ∈ ids, findMatrix ms id = none) →
      exceptMap (levelData b ms ls) ids = Except.error ParseErr.typeError := by
  intro ids
  induction ids with
  | nil =>
    rintro ⟨id, hmem, -⟩
    simp at hmem
  | cons id0 rest ih =>
    rintro ⟨id, hmem, hnone⟩
    cases hfm : findMatrix ms id0 with
    | none =>
      have h0 := @levelData_error_of_none b ms ls id0 hfm
      simp [exceptMap, h0]
    | some m =>
      obtain ⟨d, hd, -⟩ := @levelData_ok_of_find b ms ls id0 m hfm
      have hmem2 : id ∈ rest := by
        rcases List.mem_cons.mp hmem with h1 | h1
        · subst h1; rw [hfm] at hnone; cases hnone
        · exact h1
      have hrest := ih ⟨id, hmem2, hnone⟩
      simp [exceptMap, hd, hrest]

theorem exceptMap_ok_get {f : String → Except ParseErr LevelData} :
    ∀ (ids : List String) (l : List LevelData), exceptMap f ids = Except.ok l →
      ∀ (i : Nat) (id : String), ids[i]? = some id →
        ∃ d, f id = Except.ok d ∧ l[i]? = some d := by
  intro ids
  induction ids with
  | nil =>
    intro l hmap i id hid
    simp at hid
  | cons id0 rest ih =>
    intro l hmap i id hid
    cases hf : f id0 with
    | error e => simp [exceptMap, hf] at hmap
    | ok d0 =>
      cases hm : exceptMap f rest with
      | error e => simp [exceptMap, hf, hm] at hmap
      | ok l2 =>
        have hl : l = d0 :: l2 := by
          simp [exceptMap, hf, hm] at hmap
          exact hmap.symm
        subst hl
        cases i with
        | zero =>
          simp at hid
          subst hid
          exact ⟨d0, hf, by simp⟩
        | succ n =>
          simp only [List.getElem?_cons_succ] at hid
          obtain ⟨d, hd, hl2⟩ := ih l2 hm n id hid
          exact ⟨d, hd, by simpa using hl2⟩

/-! ### Claim theorems -/

/-- C5: appendCollectionsQueryParam on the template tiles/{z}/{x}/{y}.png
with collections [a,b ; c] returns exactly
tiles/{z}/{x}/{y}.png?collections=a%2Cb,c — the comma inside the first
identifier is escaped, the separating comma is not. -/
theorem append_collections_concrete_example :
    appendCollectionsQueryParam "tiles/{z}/{x}/{y}.png" ["a,b", "c"] =
      "tiles/{z}/{x}/{y}.png?collections=a%2Cb,c" := by decide

/-- C9: appendCollectionsQueryParam returns the template unchanged when the
collection list is empty, and when the templates URL path contains a
collections segment (in the latter case logging the diagnostic whenever the
guard is reached, which requires a nonempty collection list). -/
theorem append_collections_unchanged_cases (t : String) (cs : List String) :
    (cs = [] → appendCollectionsQueryParam t cs = t) ∧
    ("collections" ∈ splitOnChar '/' (filePathname t) →
      appendCollectionsQueryParam t cs = t ∧
      (cs ≠ [] → (appendCollectionsQueryParamLogged t cs).2 = true)) := by
  constructor
  · intro h; subst h; rfl
  · intro hseg
    by_cases hcs : cs = []
    · subst hcs
      exact ⟨rfl, fun hne => absurd rfl hne⟩
    · have hlen : ¬cs.length = 0 := by simpa [List.length_eq_zero] using hcs
      refine ⟨?_, fun _ => ?_⟩
      · unfold appendCollectionsQueryParam appendCollectionsQueryParamLogged
        rw [if_neg hlen, if_pos hseg]
      · unfold appendCollectionsQueryParamLogged
        rw [if_neg hlen, if_pos hseg]

theorem append_collections_unchanged_cases_witness :
    appendCollectionsQueryParam "a/collections/1" ["x"] = "a/collections/1" ∧
    appendCollectionsQueryParam "q/r" [] = "q/r" :=
  ⟨((append_collections_unchanged_cases "a/collections/1" ["x"]).2 (by decide)).1,
    (append_collections_unchanged_cases "q/r" []).1 rfl⟩

/-- C10: the constructed URL function never reads its pixelRatio and
projection arguments: any two calls at the same tile coordinate agree. -/
theorem url_function_ignores_pixel_ratio_and_projection
    (resolveUrl : String → String → String) (base : String)
    (context : Option (List (String × String))) (matrices : List TileMatrix)
    (matrixIds : List String) (limits : Option (List TileMatrixSetLimit))
    (tmpl : String) (coord : Option (Int × Int × Int))
    (pr1 pr2 : Int) (pj1 pj2 : Projection) :
    tileUrlFunction resolveUrl base context matrices matrixIds limits tmpl coord pr1 pj1 =
      tileUrlFunction resolveUrl base context matrices matrixIds limits tmpl coord pr2 pj2 :=
  rfl

/-- C7: at a level whose matrix declares cornerOfOrigin bottomLeft the URL
function feeds the converted row -r - 1 to the rest of the computation
(limit check and substitution); at any other level (topLeft or the absent
default) the row is used unchanged. -/
theorem url_function_row_conversion
    (resolveUrl : String → String → String) (base : String)
    (context : Option (List (String × String))) (matrices : List TileMatrix)
    (matrixIds : List String) (limits : Option (List TileMatrixSetLimit))
    (tmpl : String) (z c r : Int) (id : String) (m : TileMatrix)
    (pr : Int) (pj : Projection)
    (hid : listGetInt matrixIds z = some id)
    (hm : findMatrix matrices id = some m) :
    (m.cornerOfOrigin = some "bottomLeft" →
      tileUrlFunction resolveUrl base context matrices matrixIds limits tmpl
          (some (z, c, r)) pr pj =
        tileUrlForRow resolveUrl base context limits tmpl id m c (-r - 1)) ∧
    (m.cornerOfOrigin ≠ some "bottomLeft" →
      tileUrlFunction resolveUrl base context matrices matrixIds limits tmpl
          (some (z, c, r)) pr pj =
        tileUrlForRow resolveUrl base context limits tmpl id m c r) := by
  have hstep : tileUrlFunction resolveUrl base context matrices matrixIds limits tmpl
      (some (z, c, r)) pr pj =
      tileUrlForRow resolveUrl base context limits tmpl id m c (convertedTileRow m r) := by
    simp [tileUrlFunction, hid, hm]
  constructor
  · intro hc
    rw [hstep]
    simp [convertedTileRow, hc]
  · intro hc
    rw [hstep]
    simp [convertedTileRow, hc]

theorem url_function_row_conversion_witness :
    tileUrlFunction (fun b u => b ++ u) "B/" none
        ([⟨"b0", 1, (0, 0), some "bottomLeft", 4, 4, 1, 1⟩] : List TileMatrix)
        ["b0"] none "t/{z}/{x}/{y}" (some (0, 2, 5)) 0 ⟨"enu"⟩ =
      tileUrlForRow (fun b u => b ++ u) "B/" none none "t/{z}/{x}/{y}" "b0"
        (⟨"b0", 1, (0, 0), some "bottomLeft", 4, 4, 1, 1⟩ : TileMatrix) 2 (-5 - 1) :=
  (url_function_row_conversion (fun b u => b ++ u) "B/" none
      ([⟨"b0", 1, (0, 0), some "bottomLeft", 4, 4, 1, 1⟩] : List TileMatrix)
      ["b0"] none "t/{z}/{x}/{y}" 0 2 5 "b0"
      (⟨"b0", 1, (0, 0), some "bottomLeft", 4, 4, 1, 1⟩ : TileMatrix) 0 ⟨"enu"⟩
      (by decide) (by decide)).1 rfl

/-- C1 counterexample: with an item link carrying a recognized vector type
(href A) and a non-item link whose type is the first supported media type
(href B), the selector returns B — the supported-media-types walk takes
precedence over the recognized-vector fallback, contradicting the claimed
order. -/
theorem vector_template_precedence_cex :
    getVectorTileUrlTemplate
        ([⟨"item", "A", "application/geo+json"⟩, ⟨"other", "B", "text/other"⟩] : List Link)
        none (some ["text/other"]) none = Except.ok "B" ∧
    List.find? knownVectorItemPred
        ([⟨"item", "A", "application/geo+json"⟩, ⟨"other", "B", "text/other"⟩] : List Link) =
      some ⟨"item", "A", "application/geo+json"⟩ ∧
    ("B" : String) ≠ "A" := by decide

theorem vector_template_characterization_witness :
    getVectorTileUrlTemplate
        ([⟨"item", "A", "application/geo+json"⟩, ⟨"other", "B", "text/other"⟩] : List Link)
        none (some ["text/other"]) none =
      vectorTemplateSpec
        ([⟨"item", "A", "application/geo+json"⟩, ⟨"other", "B", "text/other"⟩] : List Link)
        none (some ["text/other"]) :=
  vector_template_characterization
    ([⟨"item", "A", "application/geo+json"⟩, ⟨"other", "B", "text/other"⟩] : List Link)
    none (some ["text/other"]) (by decide)

/-- C2 counterexample: with two item links of recognized raster types and no
exact match, the selector returns the href of the LAST one (B), not the
first (A): the recognized-type fallback is overwritten by a later link. -/
theorem map_template_first_recognized_cex :
    getMapTileUrlTemplate
        ([⟨"item", "A", "image/png"⟩, ⟨"item", "B", "image/jpeg"⟩] : List Link)
        (some "text/special") none = Except.ok "B" ∧
    List.find? knownMapItemPred
        ([⟨"item", "A", "image/png"⟩, ⟨"item", "B", "image/jpeg"⟩] : List Link) =
      some ⟨"item", "A", "image/png"⟩ ∧
    ("B" : String) ≠ "A" := by decide

theorem map_template_characterization_witness :
    getMapTileUrlTemplate
        ([⟨"item", "A", "image/png"⟩, ⟨"item", "B", "image/jpeg"⟩] : List Link)
        (some "text/special") none =
      mapTemplateSpec
        ([⟨"item", "A", "image/png"⟩, ⟨"item", "B", "image/jpeg"⟩] : List Link)
        (some "text/special") :=
  map_template_characterization
    ([⟨"item", "A", "image/png"⟩, ⟨"item", "B", "image/jpeg"⟩] : List Link)
    (some "text/special") (by decide)

theorem levelData_error_elim {b : Bool} {ms : List TileMatrix}
    {ls : Option (List TileMatrixSetLimit)} {id : String} {e : ParseErr}
    (h : levelData b ms ls id = Except.error e) : e = ParseErr.typeError := by
  cases hfm : findMatrix ms id with
  | none =>
    rw [@levelData_error_of_none b ms ls id hfm] at h
    injection h with h2
    exact h2.symm
  | some m =>
    obtain ⟨d, hd, -⟩ := @levelData_ok_of_find b ms ls id m hfm
    rw [hd] at h
    cases h

theorem exceptMap_error_elim {b : Bool} {ms : List TileMatrix}
    {ls : Option (List TileMatrixSetLimit)} :
    ∀ {ids : List String} {e : ParseErr},
      exceptMap (levelData b ms ls) ids = Except.error e → e = ParseErr.typeError := by
  intro ids
  induction ids with
  | nil => intro e h; simp [exceptMap] at h
  | cons id0 rest ih =>
    intro e h
    cases hld : levelData b ms ls id0 with
    | error e0 =>
      simp [exceptMap, hld] at h
      rw [← h]
      exact levelData_error_elim hld
    | ok d =>
      rw [exceptMap.eq_def] at h
      simp only [hld] at h
      cases hm2 : exceptMap (levelData b ms ls) rest with
      | error e2 =>
        rw [hm2] at h
        injection h with h3
        rw [← h3]
        exact ih hm2
      | ok l2 =>
        rw [hm2] at h
        cases h

/-- C3 counterexample: a limits list referencing the matrix id 1, absent
from the single-matrix set (id 0), makes parsing itself fail with the host
TypeError of reading pointOfOrigin of an undefined record — parsing does
not succeed. -/
theorem parse_missing_limit_id_cex :
    parseTileMatrixSet (fun _ => none)
        (⟨"http://ex.com/", none, none, some ⟨"enu"⟩, none, none⟩ : SourceInfo)
        (⟨"set", Crs.uri "EPSG:3857", none,
          [⟨"0", 1, (0, 0), none, 1, 1, 1, 1⟩]⟩ : TileMatrixSet)
        "t" (some [⟨"1", 0, 0, 0, 0⟩]) = Except.error ParseErr.typeError := by
  decide

/-- C3 (amended): when the supplied limits reference a tileMatrix id that
does not occur in the tileMatrices list, parseTileMatrixSet does not
succeed: the per-level loop reads a property of the missing matrix record
and fails with a TypeError (the URL function is never constructed).  Stated
with the source projection supplied so the earlier CRS step cannot fail
first. -/
theorem parse_missing_limit_id_fails (gp : String → Option Projection)
    (si : SourceInfo) (tms : TileMatrixSet) (tmpl : String)
    (L : List TileMatrixSetLimit) (p : Projection)
    (hsi : si.projection = some p)
    (hmiss : ∃ l ∈ L, findMatrix tms.tileMatrices l.tileMatrix = none) :
    parseTileMatrixSet gp si tms tmpl (some L) = Except.error ParseErr.typeError := by
  obtain ⟨l, hl, hnone⟩ := hmiss
  have hids : l.tileMatrix ∈ matrixIdsOf tms (some L) := by
    simp only [matrixIdsOf]
    exact List.mem_map.mpr ⟨l, hl, rfl⟩
  simp only [parseTileMatrixSet, resolveProjection, hsi]
  rw [exceptMap_levelData_error _ _ _ _ ⟨l.tileMatrix, hids, hnone⟩]

theorem parse_missing_limit_id_fails_witness :
    parseTileMatrixSet (fun _ => none)
        (⟨"u", none, none, some ⟨"enu"⟩, none, none⟩ : SourceInfo)
        (⟨"s", Crs.uri "x", none, [⟨"0", 1, (0, 0), none, 1, 1, 1, 1⟩]⟩ : TileMatrixSet)
        "tm" (some [⟨"0", 0, 0, 0, 0⟩, ⟨"9", 0, 0, 0, 0⟩]) =
      Except.error ParseErr.typeError :=
  parse_missing_limit_id_fails (fun _ => none)
    (⟨"u", none, none, some ⟨"enu"⟩, none, none⟩ : SourceInfo)
    (⟨"s", Crs.uri "x", none, [⟨"0", 1, (0, 0), none, 1, 1, 1, 1⟩]⟩ : TileMatrixSet)
    "tm" [⟨"0", 0, 0, 0, 0⟩, ⟨"9", 0, 0, 0, 0⟩] ⟨"enu"⟩ rfl
    ⟨⟨"9", 0, 0, 0, 0⟩, by decide, by decide⟩

/-- C6: projection resolution of parseTileMatrixSet.  When the source info
carries a projection it is used and the unsupported-CRS error cannot occur;
when it does not, a bare URI string or a uri-carrying object is resolved
through the registry, and a WKT or reference-system CRS fails with the
explicit error whose message names the offending CRS payload. -/
theorem parse_projection_resolution (gp : String → Option Projection)
    (si : SourceInfo) (tms : TileMatrixSet) (tmpl : String)
    (limits : Option (List TileMatrixSetLimit)) :
    (∀ p, si.projection = some p →
      (∀ msg, parseTileMatrixSet gp si tms tmpl limits ≠
          Except.error (ParseErr.unsupportedCrs msg)) ∧
      ∀ info, parseTileMatrixSet gp si tms tmpl limits = Except.ok info →
        info.projection = p) ∧
    (si.projection = none → ∀ j, tms.crs = Crs.wkt j →
      parseTileMatrixSet gp si tms tmpl limits =
        Except.error (ParseErr.unsupportedCrs
          ("Unsupported CRS: " ++ crsStringify tms.crs))) ∧
    (si.projection = none → ∀ j, tms.crs = Crs.referenceSystem j →
      parseTileMatrixSet gp si tms tmpl limits =
        Except.error (ParseErr.unsupportedCrs
          ("Unsupported CRS: " ++ crsStringify tms.crs))) ∧
    (si.projection = none → ∀ s p, tms.crs = Crs.uri s → gp s = some p →
      ∀ info, parseTileMatrixSet gp si tms tmpl limits = Except.ok info →
        info.projection = p) ∧
    (si.projection = none → ∀ s p, tms.crs = Crs.uriObject s → gp s = some p →
      ∀ info, parseTileMatrixSet gp si tms tmpl limits = Except.ok info →
        info.projection = p) := by
  refine ⟨?_, ?_, ?_, ?_, ?_⟩
  · intro p hp
    constructor
    · intro msg hcontra
      simp only [parseTileMatrixSet, resolveProjection, hp] at hcontra
      cases hmap : exceptMap
          (levelData (!strStartsWith
            (match tms.orderedAxes with
              | some axes => axisOrientationHint axes
              | none => p.axisOrientation) "en") tms.tileMatrices limits)
          (matrixIdsOf tms limits) with
      | error e =>
        rw [hmap] at hcontra
        injection hcontra with h2
        have := exceptMap_error_elim hmap
        rw [this] at h2
        cases h2
      | ok levels =>
        rw [hmap] at hcontra
        cases hcontra
    · intro info hok
      simp only [parseTileMatrixSet, resolveProjection, hp] at hok
      cases hmap : exceptMap
          (levelData (!strStartsWith
            (match tms.orderedAxes with
              | some axes => axisOrientationHint axes
              | none => p.axisOrientation) "en") tms.tileMatrices limits)
          (matrixIdsOf tms limits) with
      | error e => rw [hmap] at hok; cases hok
      | ok levels =>
        rw [hmap] at hok
        injection hok with h2
        rw [← h2]
  · intro hp j hcrs
    simp only [parseTileMatrixSet, resolveProjection, hp, hcrs]
  · intro hp j hcrs
    simp only [parseTileMatrixSet, resolveProjection, hp, hcrs]
  · intro hp s p hcrs hgp info hok
    simp only [parseTileMatrixSet, resolveProjection, hp, hcrs, hgp] at hok
    cases hmap : exceptMap
        (levelData (!strStartsWith
          (match tms.orderedAxes with
            | some axes => axisOrientationHint axes
            | none => p.axisOrientation) "en") tms.tileMatrices limits)
        (matrixIdsOf tms limits) with
    | error e => rw [hmap] at hok; cases hok
    | ok levels =>
      rw [hmap] at hok
      injection hok with h2
      rw [← h2]
  · intro hp s p hcrs hgp info hok
    simp only [parseTileMatrixSet, resolveProjection, hp, hcrs, hgp] at hok
    cases hmap : exceptMap
        (levelData (!strStartsWith
          (match tms.orderedAxes with
            | some axes => axisOrientationHint axes
            | none => p.axisOrientation) "en") tms.tileMatrices limits)
        (matrixIdsOf tms limits) with
    | error e => rw [hmap] at hok; cases hok
    | ok levels =>
      rw [hmap] at hok
      injection hok with h2
      rw [← h2]

theorem parse_projection_resolution_witness :
    parseTileMatrixSet (fun _ => none)
        (⟨"u", none, none, none, none, none⟩ : SourceInfo)
        (⟨"s", Crs.wkt "7", none, []⟩ : TileMatrixSet) "t" none =
      Except.error (ParseErr.unsupportedCrs "Unsupported CRS: \x7b\"wkt\":7\x7d") ∧
    (⟨"t", ⟨"neu"⟩, [], [], [], [], none, []⟩ : TileSetInfo).projection = ⟨"neu"⟩ :=
  ⟨(parse_projection_resolution (fun _ => none)
      (⟨"u", none, none, none, none, none⟩ : SourceInfo)
      (⟨"s", Crs.wkt "7", none, []⟩ : TileMatrixSet) "t" none).2.1 rfl "7" rfl,
    (parse_projection_resolution (fun _ => some ⟨"neu"⟩)
      (⟨"u", none, none, none, none, none⟩ : SourceInfo)
      (⟨"s", Crs.uri "EPSG:9", none, []⟩ : TileMatrixSet) "t" none).2.2.2.1 rfl
      "EPSG:9" ⟨"neu"⟩ rfl rfl
      (⟨"t", ⟨"neu"⟩, [], [], [], [], none, []⟩ : TileSetInfo) (by decide)⟩

/-- C8: for a matrix set declaring orderedAxes [Lat, Lon] the normalized
axis orientation is ne, which does not start with en, so the parser treats
the axis order as backwards and every built level origin is the swapped
pointOfOrigin pair of the matrix resolved for that level. -/
theorem parse_lat_lon_swaps_origins (gp : String → Option Projection)
    (si : SourceInfo) (tms : TileMatrixSet) (tmpl : String)
    (limits : Option (List TileMatrixSetLimit)) (info : TileSetInfo)
    (hax : tms.orderedAxes = some ["Lat", "Lon"])
    (hp : parseTileMatrixSet gp si tms tmpl limits = Except.ok info) :
    axisOrientationHint ["Lat", "Lon"] = "ne" ∧
    strStartsWith (axisOrientationHint ["Lat", "Lon"]) "en" = false ∧
    ∀ (i : Nat) (id : String) (m : TileMatrix),
      (matrixIdsOf tms limits)[i]? = some id →
      findMatrix tms.tileMatrices id = some m →
      info.origins[i]? = some (m.pointOfOrigin.2, m.pointOfOrigin.1) := by
  refine ⟨by decide, by decide, ?_⟩
  intro i id m hid hm
  simp only [parseTileMatrixSet, hax] at hp
  cases hproj : resolveProjection gp si tms with
  | none => rw [hproj] at hp; cases hp
  | some p =>
    rw [hproj] at hp
    have hb : (!strStartsWith (axisOrientationHint ["Lat", "Lon"]) "en") = true := by decide
    rw [hb] at hp
    cases hmap : exceptMap (levelData true tms.tileMatrices limits)
        (matrixIdsOf tms limits) with
    | error e => rw [hmap] at hp; cases hp
    | ok levels =>
      rw [hmap] at hp
      injection hp with h2
      obtain ⟨d, hd, hli⟩ := exceptMap_ok_get _ _ hmap i id hid
      obtain ⟨d2, hd2, hor2⟩ :=
        @levelData_ok_of_find true tms.tileMatrices limits id m hm
      rw [hd2] at hd
      injection hd with hd3
      rw [← h2]
      simp only [List.getElem?_map, hli]
      subst hd3
      simp [hor2]

theorem parse_lat_lon_swaps_origins_witness :
    (⟨"t", ⟨"enu"⟩, [(7, 5)], [2], [(1, 1)], [(1, 1)], none, ["0"]⟩ : TileSetInfo).origins[0]? =
      some ((7 : Int), (5 : Int)) :=
  (parse_lat_lon_swaps_origins (fun _ => none)
      (⟨"u", none, none, some ⟨"enu"⟩, none, none⟩ : SourceInfo)
      (⟨"s", Crs.uri "x", some ["Lat", "Lon"],
        [⟨"0", 2, (5, 7), none, 1, 1, 1, 1⟩]⟩ : TileMatrixSet)
      "t" none
      (⟨"t", ⟨"enu"⟩, [(7, 5)], [2], [(1, 1)], [(1, 1)], none, ["0"]⟩ : TileSetInfo)
      rfl (by decide)).2.2 0 "0" (⟨"0", 2, (5, 7), none, 1, 1, 1, 1⟩ : TileMatrix)
    (by decide) (by decide)

theorem tileUrlForRow_limit (resolveUrl : String → String → String) (base : String)
    (context : Option (List (String × String))) (L : List TileMatrixSetLimit)
    (tmpl : String) (id : String) (m : TileMatrix) (c tr : Int)
    (lim : TileMatrixSetLimit) (hl : findLimit L m.id = some lim) :
    tileUrlForRow resolveUrl base context (some L) tmpl id m c tr =
      if (c < lim.minTileCol || c > lim.maxTileCol ||
          tr < lim.minTileRow || tr > lim.maxTileRow) = true
      then UrlOut.undefined
      else UrlOut.url (resolveUrl base (replaceTemplateVars tmpl
        (fun q => (ctxLookup (tileContext id c tr context) q).getD "undefined"))) := by
  by_cases hb : (c < lim.minTileCol || c > lim.maxTileCol ||
      tr < lim.minTileRow || tr > lim.maxTileRow) = true
  · simp [tileUrlForRow, hl, hb]
  · simp [tileUrlForRow, hl, hb]

/-- C4: with limits in force and a resolvable level, the URL function
returns the substituted, base-resolved URL exactly when the converted
(column, row) pair lies inside the inclusive limit box of that level, and
undefined when it lies outside.  Stated for an empty caller context so the
substitution context is exactly the tile values. -/
theorem url_function_limits_round_trip
    (resolveUrl : String → String → String) (gp : String → Option Projection)
    (si : SourceInfo) (tms : TileMatrixSet) (tmpl : String)
    (L : List TileMatrixSetLimit) (z c r : Int) (id : String) (m : TileMatrix)
    (lim : TileMatrixSetLimit) (pr : Int) (pj : Projection)
    (hok : exceptIsOk (parseTileMatrixSet gp si tms tmpl (some L)) = true)
    (hctx : si.context = none)
    (hid : listGetInt (matrixIdsOf tms (some L)) z = some id)
    (hm : findMatrix tms.tileMatrices id = some m)
    (hl : findLimit L id = some lim) :
    (lim.minTileCol ≤ c ∧ c ≤ lim.maxTileCol ∧
        lim.minTileRow ≤ convertedTileRow m r ∧
        convertedTileRow m r ≤ lim.maxTileRow →
      parsedUrlFunction resolveUrl si tms (some L) tmpl (some (z, c, r)) pr pj =
        UrlOut.url (resolveUrl si.url (replaceTemplateVars tmpl
          (fun q => (ctxLookup (tileContext id c (convertedTileRow m r) none) q).getD
            "undefined")))) ∧
    (¬(lim.minTileCol ≤ c ∧ c ≤ lim.maxTileCol ∧
        lim.minTileRow ≤ convertedTileRow m r ∧
        convertedTileRow m r ≤ lim.maxTileRow) →
      parsedUrlFunction resolveUrl si tms (some L) tmpl (some (z, c, r)) pr pj =
        UrlOut.undefined) := by
  have hmid : m.id = id := findMatrix_id hm
  have hstep : parsedUrlFunction resolveUrl si tms (some L) tmpl (some (z, c, r)) pr pj =
      tileUrlForRow resolveUrl si.url si.context (some L) tmpl id m c
        (convertedTileRow m r) := by
    simp [parsedUrlFunction, tileUrlFunction, hid, hm]
  have hlm : findLimit L m.id = some lim := by rw [hmid]; exact hl
  rw [hstep, tileUrlForRow_limit resolveUrl si.url si.context L tmpl id m c
    (convertedTileRow m r) lim hlm, hctx]
  constructor
  · rintro ⟨h1, h2, h3, h4⟩
    have hb : (c < lim.minTileCol || c > lim.maxTileCol ||
        convertedTileRow m r < lim.minTileRow ||
        convertedTileRow m r > lim.maxTileRow) = false := by
      simp only [Bool.or_eq_false_iff, decide_eq_false_iff_not, not_lt]
      omega
    rw [hb]
    simp
  · intro hn
    have hb : (c < lim.minTileCol || c > lim.maxTileCol ||
        convertedTileRow m r < lim.minTileRow ||
        convertedTileRow m r > lim.maxTileRow) = true := by
      simp only [Bool.or_eq_true, decide_eq_true_eq]
      by_contra hfalse
      push_neg at hfalse
      exact hn ⟨by omega, by omega, by omega, by omega⟩
    rw [hb]
    simp

theorem url_function_limits_round_trip_witness :
    parsedUrlFunction (fun b u => b ++ u)
        (⟨"http://ex.com/", none, none, some ⟨"enu"⟩, none, none⟩ : SourceInfo)
        (⟨"set", Crs.uri "EPSG:3857", some ["E", "N"],
          [⟨"m0", 1, (0, 10), none, 4, 4, 1, 1⟩]⟩ : TileMatrixSet)
        (some [⟨"m0", 0, 1, 0, 1⟩]) "t/{z}/{x}/{y}" (some (0, 1, 1)) 0 ⟨"enu"⟩ =
      UrlOut.url "http://ex.com/t/m0/1/1" ∧
    parsedUrlFunction (fun b u => b ++ u)
        (⟨"http://ex.com/", none, none, some ⟨"enu"⟩, none, none⟩ : SourceInfo)
        (⟨"set", Crs.uri "EPSG:3857", some ["E", "N"],
          [⟨"m0", 1, (0, 10), none, 4, 4, 1, 1⟩]⟩ : TileMatrixSet)
        (some [⟨"m0", 0, 1, 0, 1⟩]) "t/{z}/{x}/{y}" (some (0, 9, 1)) 0 ⟨"enu"⟩ =
      UrlOut.undefined := by
  constructor
  · have h := (url_function_limits_round_trip (fun b u => b ++ u) (fun _ => none)
      (⟨"http://ex.com/", none, none, some ⟨"enu"⟩, none, none⟩ : SourceInfo)
      (⟨"set", Crs.uri "EPSG:3857", some ["E", "N"],
        [⟨"m0", 1, (0, 10), none, 4, 4, 1, 1⟩]⟩ : TileMatrixSet)
      "t/{z}/{x}/{y}" [⟨"m0", 0, 1, 0, 1⟩] 0 1 1 "m0"
      (⟨"m0", 1, (0, 10), none, 4, 4, 1, 1⟩ : TileMatrix)
      (⟨"m0", 0, 1, 0, 1⟩ : TileMatrixSetLimit) 0 ⟨"enu"⟩
      (by decide) rfl (by decide) (by decide) (by decide)).1 (by decide)
    exact h.trans (by decide)
  · exact (url_function_limits_round_trip (fun b u => b ++ u) (fun _ => none)
      (⟨"http://ex.com/", none, none, some ⟨"enu"⟩, none, none⟩ : SourceInfo)
      (⟨"set", Crs.uri "EPSG:3857", some ["E", "N"],
        [⟨"m0", 1, (0, 10), none, 4, 4, 1, 1⟩]⟩ : TileMatrixSet)
      "t/{z}/{x}/{y}" [⟨"m0", 0, 1, 0, 1⟩] 0 9 1 "m0"
      (⟨"m0", 1, (0, 10), none, 4, 4, 1, 1⟩ : TileMatrix)
      (⟨"m0", 0, 1, 0, 1⟩ : TileMatrixSetLimit) 0 ⟨"enu"⟩
      (by decide) rfl (by decide) (by decide) (by decide)).2 (by decide)
